import Mathlib

/-!
A shallow embedding of the session-orchestrator core of `src/server.py`
(a socket.io chess server).  The module-level mutable registries of the
source (`waiting`, `games`, `replay_requests`, plus the socket.io session
store and room membership) become an explicit `ServerState`; each
socket.io event handler (`connect`, `join`, `move`, `replay`, `quit`,
`disconnect`) becomes a function from state to state paired with the list
of emitted messages.  The external python-chess library (the Rules
Engine, explicitly out of scope of the spec) is abstracted as a `Rules`
structure; moves travel as their UCI strings, exactly as in the source.
A python exception escaping a handler is modelled as `Except.error`
(`KeyError` / `ValueError`); note that in python a raise can leave
earlier mutations of the handler in place, while the `Except` model
discards them — no theorem below relies on the state after a raise.
-/

deriving instance DecidableEq for Except

namespace Chess

/-- A python exception class escaping a handler. -/
inductive Err where
  | keyError
  | valueError
deriving DecidableEq, Repr

/-- The socket.io per-connection session dictionary, as used by the
server: it may hold a `"room"` key and a `"color"` key
(`sio.save_session(p, {"room": room, "color": ...})`); `quit` deletes
just the `"room"` key of the opponent's session. -/
structure SessionData where
  room : Option String
  color : Option String
deriving DecidableEq, Repr

/-- The opaque Rules Engine (python-chess) consumed by the server:
`chess.Board()` is `init`, `board.fen()` is `fen`, `chess.Move.from_uci`
succeeding is `fromUciOk`, `move in board.legal_moves` is `legal`,
`board.push` is `push`, `board.is_game_over()` is `isGameOver`, and
`board.result()` is `result`.  Moves are identified by their UCI string,
as built by the `move` handler. -/
structure Rules (Board : Type) where
  init : Board
  fen : Board → String
  fromUciOk : String → Bool
  legal : Board → String → Bool
  push : Board → String → Board
  isGameOver : Board → Bool
  result : Board → String

/-- The server's global mutable state: the module-level `waiting` list,
`games` dict, `replay_requests` dict, plus the socket.io engine state the
handlers rely on (which sids are connected, each sid's saved session, and
room membership pairs `(room, sid)` maintained by
`enter_room`/`leave_room`).  Python dicts are association lists in
insertion order (assignment to an existing key keeps its position, new
keys append). -/
structure ServerState (Board : Type) where
  connected : List String
  waiting : List String
  games : List (String × Board)
  replayRequests : List (String × List String)
  sessions : List (String × SessionData)
  rooms : List (String × String)
deriving DecidableEq, Repr

/-- Dictionary lookup on an association list (first match). -/
def lookupA {α : Type} : List (String × α) → String → Option α
  | [], _ => none
  | (k', v) :: t, k => if k' = k then some v else lookupA t k

/-- Dictionary assignment `d[k] = v`: replace the first entry for `k` in
place, else append at the end (python dict insertion-order semantics). -/
def insertA {α : Type} : List (String × α) → String → α → List (String × α)
  | [], k, v => [(k, v)]
  | (k', v') :: t, k, v =>
    if k' = k then (k, v) :: t else (k', v') :: insertA t k v

/-- Dictionary deletion `del d[k]` (removes the entry for `k` when
present; keys are unique whenever the list was built by `insertA`). -/
def eraseA {α : Type} : List (String × α) → String → List (String × α)
  | [], _ => []
  | (k', v') :: t, k => if k' = k then t else (k', v') :: eraseA t k

/-- Python `s.split("_")`: split on every underscore, keeping empty
pieces.  Defined structurally over the character list so that it
evaluates in the kernel. -/
def splitUnderscoreAux : List Char → List Char → List (List Char)
  | [], acc => [acc.reverse]
  | x :: xs, acc =>
    if x = '_' then acc.reverse :: splitUnderscoreAux xs []
    else splitUnderscoreAux xs (x :: acc)

/-- Python `room.split("_")` as used by `quit` and `disconnect`. -/
def splitOnUnderscore (s : String) : List String :=
  (splitUnderscoreAux s.toList []).map (fun l => String.mk l)

/-- The room identifier `f"room_{p1}_{p2}"` built by `join`. -/
def mkRoom (p1 p2 : String) : String :=
  "room_" ++ p1 ++ "_" ++ p2

/-- The sids currently in a room, in membership-insertion order: the
recipients of an `emit(..., room=room)` broadcast. -/
def roomMembers (rooms : List (String × String)) (room : String) : List String :=
  (rooms.filter (fun q => q.1 = room)).map (fun q => q.2)

/-- `sio.enter_room(sid, room)`: membership is a set, adding twice has no
effect. -/
def enterRoom (rooms : List (String × String)) (sid room : String) :
    List (String × String) :=
  if (room, sid) ∈ rooms then rooms else rooms ++ [(room, sid)]

/-- `sio.leave_room(sid, room)`. -/
def leaveRoom (rooms : List (String × String)) (sid room : String) :
    List (String × String) :=
  rooms.filter (fun q => ¬(q.1 = room ∧ q.2 = sid))

/-- On disconnect the engine removes the sid from every room. -/
def leaveAllRooms (rooms : List (String × String)) (sid : String) :
    List (String × String) :=
  rooms.filter (fun q => ¬q.2 = sid)

/-- A server-to-client protocol message, with its payload. -/
inductive Msg where
  | start (fen color : String)
  | move (uci fen : String)
  | invalid (uci : String)
  | gameOver (result : String)
  | replayStart (fen : String)
  | opponentLeft
deriving DecidableEq, Repr

/-- One `sio.emit` call: the sids it is delivered to (computed from the
`to=` argument or from room membership at emission time) and the
message. -/
structure Emit where
  recipients : List String
  msg : Msg
deriving DecidableEq, Repr

/-- `sio.get_session(sid)`: raises `KeyError` for a sid that is not
connected; a connected sid with no saved session yields the empty
dictionary. -/
def getSession {B : Type} (s : ServerState B) (sid : String) :
    Except Err SessionData :=
  if sid ∈ s.connected then
    Except.ok ((lookupA s.sessions sid).getD ⟨none, none⟩)
  else Except.error Err.keyError

/-- The payload of a client `move` message: `data["from"]`, `data["to"]`
and the optional `data["promotion"]` (the keys may be absent). -/
structure MoveData where
  src : Option String
  dst : Option String
  promotion : Option String
deriving DecidableEq, Repr

/-- `if "promotion" in data: uci += data["promotion"]`. -/
def promoStr (d : MoveData) : String :=
  match d.promotion with
  | none => ""
  | some p => p

/-- The `connect` handler: the source only prints; the engine records the
connection. -/
def connect {B : Type} (s : ServerState B) (sid : String) : ServerState B :=
  if sid ∈ s.connected then s else { s with connected := s.connected ++ [sid] }

/-- The `join` handler (`src/server.py` lines 19-42): append the sid to
`waiting`; if the queue now holds at least two sids, pop the two oldest,
create a fresh board under `room_{p1}_{p2}`, save both sessions (first
dequeued gets `"white"`, second `"black"`), enter both into the room, and
send each participant its own `start` message (`to=p1` / `to=p2`). -/
def join {B : Type} (R : Rules B) (s : ServerState B) (sid : String) :
    ServerState B × List Emit :=
  match s.waiting ++ [sid] with
  | p1 :: p2 :: rest =>
    let room := mkRoom p1 p2
    let board := R.init
    let games' := insertA s.games room board
    let sess1 := insertA s.sessions p1 ⟨some room, some "white"⟩
    let sess2 := insertA sess1 p2 ⟨some room, some "black"⟩
    let rooms' := enterRoom (enterRoom s.rooms p1 room) p2 room
    ({ s with waiting := rest, games := games', sessions := sess2,
              rooms := rooms' },
     [⟨[p1], Msg.start (R.fen board) "white"⟩,
      ⟨[p2], Msg.start (R.fen board) "black"⟩])
  | w => ({ s with waiting := w }, [])

/-- The `move` handler (`src/server.py` lines 45-71): `session["room"]`
raises `KeyError` when the key is absent; a room with no game is a silent
no-op; the UCI string is built from `data["from"]`/`data["to"]` (absent
keys raise `KeyError`) plus the optional promotion;
`chess.Move.from_uci` raises `ValueError` on an unparseable string; a
legal move is pushed and broadcast (`move`, then `game_over` when the
position is terminal) to the room, an illegal one is answered with
`invalid` to the requester only. -/
def move {B : Type} (R : Rules B) (s : ServerState B) (sid : String)
    (data : MoveData) : Except Err (ServerState B × List Emit) :=
  match getSession s sid with
  | Except.error e => Except.error e
  | Except.ok session =>
    match session.room with
    | none => Except.error Err.keyError
    | some room =>
      match lookupA s.games room with
      | none => Except.ok (s, [])
      | some board =>
        match data.src with
        | none => Except.error Err.keyError
        | some f =>
          match data.dst with
          | none => Except.error Err.keyError
          | some t =>
            let uci := f ++ t ++ promoStr data
            if R.fromUciOk uci then
              if R.legal board uci then
                let board' := R.push board uci
                let base :=
                  [⟨roomMembers s.rooms room, Msg.move uci (R.fen board')⟩]
                let emits :=
                  if R.isGameOver board' then
                    base ++ [⟨roomMembers s.rooms room,
                              Msg.gameOver (R.result board')⟩]
                  else base
                Except.ok ({ s with games := insertA s.games room board' },
                           emits)
              else Except.ok (s, [⟨[sid], Msg.invalid uci⟩])
            else Except.error Err.valueError

/-- The `replay` handler (`src/server.py` lines 74-97):
`session.get("room")` absent is a silent no-op; otherwise the sid is
added to the room's request set (created on first use); when the set
reaches exactly two sids the board is replaced by a fresh one,
`replay_start` is broadcast to the room, and the request set is
deleted. -/
def replay {B : Type} (R : Rules B) (s : ServerState B) (sid : String) :
    Except Err (ServerState B × List Emit) :=
  match getSession s sid with
  | Except.error e => Except.error e
  | Except.ok session =>
    match session.room with
    | none => Except.ok (s, [])
    | some room =>
      let cur := (lookupA s.replayRequests room).getD []
      let cur' := if sid ∈ cur then cur else cur ++ [sid]
      let s1 := { s with replayRequests := insertA s.replayRequests room cur' }
      if cur'.length = 2 then
        Except.ok ({ s1 with games := insertA s1.games room R.init,
                             replayRequests := eraseA s1.replayRequests room },
                   [⟨roomMembers s.rooms room, Msg.replayStart (R.fen R.init)⟩])
      else Except.ok (s1, [])

/-- The `quit` handler (`src/server.py` lines 100-132):
`session.get("room")` absent is a no-op; the opponent is derived by
splitting the room name on underscores (`parts[1]`, `parts[2]`, extra
parts ignored; fewer than three parts is a no-op); `opponent_left` is
broadcast to the room; the game and any pending replay requests are
deleted; the opponent's session loses its `"room"` key
(`sio.get_session(opponent)` raises `KeyError` when the opponent is not
connected); the opponent is appended to `waiting` unless already there;
finally the quitting sid leaves the room. -/
def quit {B : Type} (s : ServerState B) (sid : String) :
    Except Err (ServerState B × List Emit) :=
  match getSession s sid with
  | Except.error e => Except.error e
  | Except.ok session =>
    match session.room with
    | none => Except.ok (s, [])
    | some room =>
      match splitOnUnderscore room with
      | _ :: s1 :: s2 :: _ =>
        let opponent := if sid = s1 then s2 else s1
        let e1 : Emit := ⟨roomMembers s.rooms room, Msg.opponentLeft⟩
        let games' := eraseA s.games room
        let rr' := eraseA s.replayRequests room
        match getSession s opponent with
        | Except.error e => Except.error e
        | Except.ok oppSession =>
          let sessions' :=
            match oppSession.room with
            | some _ => insertA s.sessions opponent ⟨none, oppSession.color⟩
            | none => s.sessions
          let waiting' :=
            if opponent ∈ s.waiting then s.waiting else s.waiting ++ [opponent]
          Except.ok ({ s with waiting := waiting', games := games',
                              replayRequests := rr', sessions := sessions',
                              rooms := leaveRoom s.rooms sid room },
                     [e1])
      | _ => Except.ok (s, [])

/-- The scan in `disconnect` over `list(games.items())`: for each room,
`s1, s2 = room.split("_")[1:]` raises `ValueError` unless the slice has
exactly two elements; the first room whose pair contains the sid is
returned (`break`). -/
def findGame {B : Type} (sid : String) :
    List (String × B) → Except Err (Option (String × String × String))
  | [] => Except.ok none
  | (room, _) :: t =>
    match (splitOnUnderscore room).drop 1 with
    | [s1, s2] =>
      if sid = s1 ∨ sid = s2 then Except.ok (some (room, s1, s2))
      else findGame sid t
    | _ => Except.error Err.valueError

/-- The `disconnect` handler (`src/server.py` lines 135-150) followed by
the engine's own cleanup: remove the sid from `waiting` (first
occurrence) if present; if some game's room name contains the sid,
broadcast `opponent_left` to that room and delete the game and its
replay requests; then the engine drops the connection, its session, and
its room memberships.  The opponent's session and the queue are left
untouched by the game branch. -/
def disconnect {B : Type} (s : ServerState B) (sid : String) :
    Except Err (ServerState B × List Emit) :=
  let s0 := { s with waiting := s.waiting.erase sid }
  match findGame sid s0.games with
  | Except.error e => Except.error e
  | Except.ok found =>
    let res :=
      match found with
      | none => (s0, ([] : List Emit))
      | some (room, _, _) =>
        ({ s0 with games := eraseA s0.games room,
                   replayRequests := eraseA s0.replayRequests room },
         [⟨roomMembers s0.rooms room, Msg.opponentLeft⟩])
    Except.ok ({ res.1 with connected := res.1.connected.erase sid,
                            sessions := eraseA res.1.sessions sid,
                            rooms := leaveAllRooms res.1.rooms sid },
               res.2)

/-- A client-generated event, for running whole traces. -/
inductive Event where
  | connect (sid : String)
  | join (sid : String)
  | move (sid : String) (data : MoveData)
  | replay (sid : String)
  | quit (sid : String)
  | disconnect (sid : String)
deriving DecidableEq, Repr

/-- Dispatch one event to its handler. -/
def step {B : Type} (R : Rules B) (s : ServerState B) :
    Event → Except Err (ServerState B × List Emit)
  | Event.connect sid => Except.ok (connect s sid, [])
  | Event.join sid => Except.ok (join R s sid)
  | Event.move sid data => move R s sid data
  | Event.replay sid => replay R s sid
  | Event.quit sid => quit s sid
  | Event.disconnect sid => disconnect s sid

/-- Run a list of events, keeping the final state. -/
def runEvents {B : Type} (R : Rules B) (s : ServerState B) :
    List Event → Except Err (ServerState B)
  | [] => Except.ok s
  | e :: es =>
    match step R s e with
    | Except.error err => Except.error err
    | Except.ok (s', _) => runEvents R s' es

/-- The empty initial server state. -/
def initialState (B : Type) : ServerState B :=
  ⟨[], [], [], [], [], []⟩

/-- A tiny concrete Rules Engine used to evaluate the orchestration on
concrete inputs: boards are move counters, every move is legal until the
board has seen three moves, after which the game is over. -/
def demoRules : Rules Nat where
  init := 0
  fen := fun b => toString b
  fromUciOk := fun u => decide (4 ≤ u.length)
  legal := fun b _ => decide (b < 3)
  push := fun b _ => b + 1
  isGameOver := fun b => decide (3 ≤ b)
  result := fun _ => "1-0"

/-- The final state of a concrete trace under `demoRules` (all traces
used below run without a python exception; the fallback branch is never
reached on them). -/
def afterEvents (es : List Event) : ServerState Nat :=
  match runEvents demoRules (initialState Nat) es with
  | Except.ok s => s
  | Except.error _ => initialState Nat

/-- Two clients connect and are paired. -/
def pairTrace : List Event :=
  [Event.connect "a", Event.connect "b", Event.join "a", Event.join "b"]

/-- Two clients are paired and the first quits. -/
def quitTrace : List Event := pairTrace ++ [Event.quit "a"]

/-- Two clients are paired and the first disconnects. -/
def discTrace : List Event := pairTrace ++ [Event.disconnect "a"]

/-- The same client joins twice. -/
def selfJoinTrace : List Event :=
  [Event.connect "a", Event.join "a", Event.join "a"]

/-- A client whose sid contains an underscore (socket.io sids are
url-safe base64 and may contain underscores) is paired with another, and
the other quits. -/
def underscoreTrace : List Event :=
  [Event.connect "x_y", Event.connect "z", Event.connect "x",
   Event.join "x_y", Event.join "z", Event.quit "z"]

/-- A trace whose final `join` re-creates the room `room_a_b` while a
stale replay request from "a" — issued after "a" quit the first
`room_a_b` game, before this one existed — is still pending under that
room identifier: "a" quits, replays while detached, the remnants are
shuffled through a helper client "c" so that "a" and "b" are paired
again in the same order, re-deriving the same room identifier. -/
def staleReplayTrace : List Event :=
  [Event.connect "a", Event.connect "b", Event.join "a", Event.join "b",
   Event.quit "a", Event.replay "a", Event.connect "c", Event.join "c",
   Event.join "a", Event.quit "b", Event.disconnect "c", Event.join "b"]

theorem lookupA_insertA_self {α : Type} (l : List (String × α)) (k : String)
    (v : α) : lookupA (insertA l k v) k = some v := by
  induction l with
  | nil => simp [insertA, lookupA]
  | cons h t ih =>
    obtain ⟨k', v'⟩ := h
    by_cases hk : k' = k
    · simp [insertA, hk, lookupA]
    · simp [insertA, hk, lookupA, ih]

theorem lookupA_insertA_ne {α : Type} (l : List (String × α)) (k k' : String)
    (v : α) (h : k' ≠ k) : lookupA (insertA l k v) k' = lookupA l k' := by
  induction l with
  | nil => simp [insertA, lookupA, Ne.symm h]
  | cons hd t ih =>
    obtain ⟨k0, v0⟩ := hd
    by_cases hk : k0 = k
    · simp [insertA, hk, lookupA, Ne.symm h]
    · simp [insertA, hk, lookupA, ih]

theorem eraseA_insertA {α : Type} (l : List (String × α)) (k : String)
    (v : α) : eraseA (insertA l k v) k = eraseA l k := by
  induction l with
  | nil => simp [insertA, eraseA]
  | cons hd t ih =>
    obtain ⟨k0, v0⟩ := hd
    by_cases hk : k0 = k
    · simp [insertA, hk, eraseA]
    · simp [insertA, hk, eraseA, ih]

theorem eraseA_of_lookupA_none {α : Type} (l : List (String × α))
    (k : String) (h : lookupA l k = none) : eraseA l k = l := by
  induction l with
  | nil => simp [eraseA]
  | cons hd t ih =>
    obtain ⟨k0, v0⟩ := hd
    by_cases hk : k0 = k
    · simp [lookupA, hk] at h
    · simp [lookupA, hk] at h
      simp [eraseA, hk, ih h]

theorem insertA_of_lookupA_self {α : Type} (l : List (String × α))
    (k : String) (v : α) (h : lookupA l k = some v) : insertA l k v = l := by
  induction l with
  | nil => simp [lookupA] at h
  | cons hd t ih =>
    obtain ⟨k0, v0⟩ := hd
    by_cases hk : k0 = k
    · simp [lookupA, hk] at h
      simp [insertA, hk, h]
    · simp [lookupA, hk] at h
      simp [insertA, hk, ih h]

theorem lookupA_eraseA_ne {α : Type} (l : List (String × α)) (k k' : String)
    (h : k' ≠ k) : lookupA (eraseA l k) k' = lookupA l k' := by
  induction l with
  | nil => simp [eraseA]
  | cons hd t ih =>
    obtain ⟨k0, v0⟩ := hd
    by_cases hk : k0 = k
    · simp [eraseA, hk, lookupA, Ne.symm h]
    · simp [eraseA, hk, lookupA, ih]

theorem mem_roomMembers {rooms : List (String × String)} {room p : String}
    (h : (room, p) ∈ rooms) : p ∈ roomMembers rooms room := by
  simp only [roomMembers, List.mem_map, List.mem_filter]
  exact ⟨(room, p), ⟨h, by simp⟩, rfl⟩

theorem leaveRoom_of_not_mem {rooms : List (String × String)}
    {sid room : String} (h : (room, sid) ∉ rooms) :
    leaveRoom rooms sid room = rooms := by
  apply List.filter_eq_self.mpr
  intro a ha
  obtain ⟨a1, a2⟩ := a
  simp only [decide_eq_true_eq]
  rintro ⟨h1, h2⟩
  subst h1
  subst h2
  exact h ha

/-- Claim C1: whenever a `join` makes the waiting queue reach length two
(or more), exactly the two oldest-queued handles are dequeued in FIFO
order, the queue shrinks by exactly two, a fresh game is created at the
canonical initial position under their room, the first-dequeued handle
is saved as white and the second as black, and a `start` message with
the board state and that participant's own color is emitted individually
to each of the two. -/
theorem join_pairs_fifo {B : Type} (R : Rules B) (s : ServerState B)
    (sid p1 p2 : String) (rest : List String)
    (h : s.waiting ++ [sid] = p1 :: p2 :: rest) (hne : p1 ≠ p2) :
    (join R s sid).1.waiting = rest ∧
    (join R s sid).1.waiting.length + 2 = (s.waiting ++ [sid]).length ∧
    lookupA (join R s sid).1.games (mkRoom p1 p2) = some R.init ∧
    lookupA (join R s sid).1.sessions p1 =
      some ⟨some (mkRoom p1 p2), some "white"⟩ ∧
    lookupA (join R s sid).1.sessions p2 =
      some ⟨some (mkRoom p1 p2), some "black"⟩ ∧
    (join R s sid).2 =
      [⟨[p1], Msg.start (R.fen R.init) "white"⟩,
       ⟨[p2], Msg.start (R.fen R.init) "black"⟩] := by
  simp only [join, h]
  simp [h, lookupA_insertA_self, lookupA_insertA_ne _ _ _ _ hne]

/-- Witness for `join_pairs_fifo` at a concrete input: "a" waits, "b"
joins. -/
theorem join_pairs_fifo_witness :
    (afterEvents [Event.connect "a", Event.connect "b", Event.join "a"]).waiting
        ++ ["b"] = "a" :: "b" :: [] ∧
    (join demoRules
        (afterEvents [Event.connect "a", Event.connect "b", Event.join "a"])
        "b").1.waiting = [] ∧
    lookupA (join demoRules
        (afterEvents [Event.connect "a", Event.connect "b", Event.join "a"])
        "b").1.games (mkRoom "a" "b") = some demoRules.init ∧
    lookupA (join demoRules
        (afterEvents [Event.connect "a", Event.connect "b", Event.join "a"])
        "b").1.sessions "a" = some ⟨some (mkRoom "a" "b"), some "white"⟩ ∧
    lookupA (join demoRules
        (afterEvents [Event.connect "a", Event.connect "b", Event.join "a"])
        "b").1.sessions "b" = some ⟨some (mkRoom "a" "b"), some "black"⟩ ∧
    (join demoRules
        (afterEvents [Event.connect "a", Event.connect "b", Event.join "a"])
        "b").2 =
      [⟨["a"], Msg.start (demoRules.fen demoRules.init) "white"⟩,
       ⟨["b"], Msg.start (demoRules.fen demoRules.init) "black"⟩] := by
  have h := join_pairs_fifo demoRules
    (afterEvents [Event.connect "a", Event.connect "b", Event.join "a"])
    "b" "a" "b" [] (by decide) (by decide)
  exact ⟨by decide, h.1, h.2.2.1, h.2.2.2.1, h.2.2.2.2.1, h.2.2.2.2.2⟩

/-- Claim C8 (the code violates it): `join` appends unconditionally, so
a second `join` from the same already-queued handle "a" makes the queue
reach length two with "a" in both slots, and the server pairs "a" with
itself: it creates the game `room_a_a`, saves "a"'s session with color
black (the white save is overwritten), and sends the single handle both
`start` messages.  The claimed silent no-op and the queue invariant do
not exist in the code. -/
theorem join_self_pairing :
    (afterEvents selfJoinTrace).games = [("room_a_a", 0)] ∧
    (afterEvents selfJoinTrace).waiting = [] ∧
    lookupA (afterEvents selfJoinTrace).sessions "a" =
      some ⟨some "room_a_a", some "black"⟩ ∧
    (join demoRules (afterEvents [Event.connect "a", Event.join "a"]) "a").2 =
      [⟨["a"], Msg.start "0" "white"⟩, ⟨["a"], Msg.start "0" "black"⟩] := by
  decide

/-- Claim C4 counterexample: the opponent is NOT identified from a
participant record but by splitting the room name on underscores.  With
participants "x_y" (a legal socket.io sid: they are url-safe base64) and
"z", the room is `room_x_y_z`; when "z" quits, the split yields
`("x", "y")` and the code picks the unrelated connected handle "x" as
the opponent: "x" is re-enqueued while the true opponent "x_y" is left
un-requeued with its session attachment intact. -/
theorem quit_split_misidentifies_opponent :
    (afterEvents underscoreTrace).waiting = ["x"] ∧
    lookupA (afterEvents underscoreTrace).sessions "x_y" =
      some ⟨some "room_x_y_z", some "white"⟩ := by
  decide

/-- Claim C5 counterexample: after "a" disconnects from the game
`room_a_b`, the opponent "b"'s session attachment still carries the
room — `disconnect` never clears the opponent's session, contrary to
the claim. -/
theorem disconnect_keeps_opponent_session :
    lookupA (afterEvents discTrace).sessions "b" =
      some ⟨some "room_a_b", some "black"⟩ := by
  decide

/-- Claim C6 counterexample: a second `quit` from "a" after its session
was already torn down by the first does not crash and leaves the state
unchanged, but it DOES emit a second `opponent_left`, delivered to the
former opponent "b" (the quitter's own session still holds the room key
and "b" never left the socket.io room). -/
theorem quit_twice_rebroadcasts :
    quit (afterEvents quitTrace) "a" =
      Except.ok (afterEvents quitTrace, [⟨["b"], Msg.opponentLeft⟩]) := by
  decide

/-- Claim C7 counterexample: a `move` from a connected handle with no
session attachment is not a silent no-op — `session["room"]` raises
`KeyError` (modelled as the error result). -/
theorem move_no_session_raises :
    move demoRules (connect (initialState Nat) "a") "a"
      ⟨some "e2", some "e4", none⟩ = Except.error Err.keyError := by
  decide

/-- Claim C9 counterexample: after "a" quits `room_a_b` (tearing the
session down), a `replay` from "a" is not ignored: the quitter's session
still holds the room key, so the request set for the dead room is
created and mutated — a state change where the claim requires none. -/
theorem replay_after_teardown_mutates :
    (afterEvents quitTrace).replayRequests = [] ∧
    replay demoRules (afterEvents quitTrace) "a" =
      Except.ok ({ afterEvents quitTrace with
                   replayRequests := [("room_a_b", ["a"])] }, []) := by
  decide

/-- Claim C2: a move from a handle attached to an existing game, with a
well-formed parseable payload, is validated by the Rules Engine: if
legal it is applied and a single `move` message carrying the UCI string
and the one resulting state is broadcast to the room (hence to both
participants), followed by a `game_over` broadcast when the resulting
position is terminal; if illegal the state is unchanged and only the
requester receives an `invalid` message. -/
theorem move_legal_illegal {B : Type} (R : Rules B) (s : ServerState B)
    (sid room f t : String) (col : Option String) (data : MoveData)
    (board : B) (p1 p2 : String)
    (hc : sid ∈ s.connected)
    (hs : lookupA s.sessions sid = some ⟨some room, col⟩)
    (hb : lookupA s.games room = some board)
    (hf : data.src = some f) (ht : data.dst = some t)
    (hu : R.fromUciOk (f ++ t ++ promoStr data) = true)
    (hp1 : (room, p1) ∈ s.rooms) (hp2 : (room, p2) ∈ s.rooms) :
    (R.legal board (f ++ t ++ promoStr data) = true →
      move R s sid data = Except.ok
        ({ s with games := insertA s.games room
                    (R.push board (f ++ t ++ promoStr data)) },
         if R.isGameOver (R.push board (f ++ t ++ promoStr data)) then
           [⟨roomMembers s.rooms room,
             Msg.move (f ++ t ++ promoStr data)
               (R.fen (R.push board (f ++ t ++ promoStr data)))⟩,
            ⟨roomMembers s.rooms room,
             Msg.gameOver (R.result (R.push board (f ++ t ++ promoStr data)))⟩]
         else
           [⟨roomMembers s.rooms room,
             Msg.move (f ++ t ++ promoStr data)
               (R.fen (R.push board (f ++ t ++ promoStr data)))⟩])) ∧
    (R.legal board (f ++ t ++ promoStr data) = false →
      move R s sid data =
        Except.ok (s, [⟨[sid], Msg.invalid (f ++ t ++ promoStr data)⟩])) ∧
    p1 ∈ roomMembers s.rooms room ∧ p2 ∈ roomMembers s.rooms room := by
  refine ⟨fun hl => ?_, fun hl => ?_, mem_roomMembers hp1, mem_roomMembers hp2⟩
  · simp only [move, getSession]
    simp [hc, hs, hb, hf, ht, hu, hl]
  · simp only [move, getSession]
    simp [hc, hs, hb, hf, ht, hu, hl]

/-- Witness for `move_legal_illegal`: "a" plays the legal move e2e4 in
the freshly created game; both members of the room receive the `move`
broadcast with the successor state. -/
theorem move_legal_illegal_witness :
    demoRules.legal 0 ("e2" ++ "e4" ++ promoStr ⟨some "e2", some "e4", none⟩)
        = true ∧
    move demoRules (afterEvents pairTrace) "a" ⟨some "e2", some "e4", none⟩ =
      Except.ok ({ afterEvents pairTrace with games := [("room_a_b", 1)] },
                 [⟨["a", "b"], Msg.move "e2e4" "1"⟩]) :=
  ⟨by decide,
   ((move_legal_illegal demoRules (afterEvents pairTrace) "a" "room_a_b"
      "e2" "e4" (some "white") ⟨some "e2", some "e4", none⟩ 0 "a" "b"
      (by decide) (by decide) (by decide) rfl rfl (by decide) (by decide)
      (by decide)).1 (by decide)).trans (by decide)⟩

/-- Claim C10: a move request from a handle attached to an existing game
whose payload is malformed raises before any board mutation — a missing
`"from"` or `"to"` key raises `KeyError`, and an unparseable UCI string
raises `ValueError` (`chess.InvalidMoveError` subclasses `ValueError`);
in both cases the handler aborts before `board.push` and before any
`emit`, which the error result models. -/
theorem move_malformed_raises {B : Type} (R : Rules B) (s : ServerState B)
    (sid room : String) (col : Option String) (board : B) (data : MoveData)
    (hc : sid ∈ s.connected)
    (hs : lookupA s.sessions sid = some ⟨some room, col⟩)
    (hb : lookupA s.games room = some board) :
    ((data.src = none ∨ data.dst = none) →
      move R s sid data = Except.error Err.keyError) ∧
    (∀ f t, data.src = some f → data.dst = some t →
      R.fromUciOk (f ++ t ++ promoStr data) = false →
      move R s sid data = Except.error Err.valueError) := by
  constructor
  · rintro (hsrc | hdst)
    · simp only [move, getSession]
      simp [hc, hs, hb, hsrc]
    · cases hsrc : data.src with
      | none =>
        simp only [move, getSession]
        simp [hc, hs, hb, hsrc]
      | some f =>
        simp only [move, getSession]
        simp [hc, hs, hb, hsrc, hdst]
  · intro f t hf ht hu
    simp only [move, getSession]
    simp [hc, hs, hb, hf, ht, hu]

/-- Witness for `move_malformed_raises`: in the live game, a payload
without `"from"` raises `KeyError` and a payload whose concatenation
"e" ++ "4" is not a parseable UCI string raises `ValueError`. -/
theorem move_malformed_raises_witness :
    lookupA (afterEvents pairTrace).games "room_a_b" = some 0 ∧
    move demoRules (afterEvents pairTrace) "a" ⟨none, some "e4", none⟩ =
      Except.error Err.keyError ∧
    move demoRules (afterEvents pairTrace) "a" ⟨some "e", some "4", none⟩ =
      Except.error Err.valueError :=
  ⟨by decide,
   (move_malformed_raises demoRules (afterEvents pairTrace) "a" "room_a_b"
      (some "white") 0 ⟨none, some "e4", none⟩ (by decide) (by decide)
      (by decide)).1 (Or.inl rfl),
   (move_malformed_raises demoRules (afterEvents pairTrace) "a" "room_a_b"
      (some "white") 0 ⟨some "e", some "4", none⟩ (by decide) (by decide)
      (by decide)).2 "e" "4" rfl rfl (by decide)⟩

/-- Claim C7 amended: a move from a handle whose attached room no longer
resolves to a game is a silent no-op; but a handle with no session
attachment (no saved session, or a session without the room key) raises
`KeyError` instead of being silently ignored, and after a terminal
position the game is still in the store, so an (illegal) move is
answered with `invalid` to the requester rather than being silently
dropped. -/
theorem move_stray_requests {B : Type} (R : Rules B) (s : ServerState B)
    (sid : String) (data : MoveData) (hc : sid ∈ s.connected) :
    (∀ room col, lookupA s.sessions sid = some ⟨some room, col⟩ →
      lookupA s.games room = none →
      move R s sid data = Except.ok (s, [])) ∧
    (∀ col, lookupA s.sessions sid = some ⟨none, col⟩ →
      move R s sid data = Except.error Err.keyError) ∧
    (lookupA s.sessions sid = none →
      move R s sid data = Except.error Err.keyError) ∧
    (∀ room col board f t, lookupA s.sessions sid = some ⟨some room, col⟩ →
      lookupA s.games room = some board → R.isGameOver board = true →
      data.src = some f → data.dst = some t →
      R.fromUciOk (f ++ t ++ promoStr data) = true →
      R.legal board (f ++ t ++ promoStr data) = false →
      move R s sid data =
        Except.ok (s, [⟨[sid], Msg.invalid (f ++ t ++ promoStr data)⟩])) := by
  refine ⟨fun room col hs hg => ?_, fun col hs => ?_, fun hs => ?_,
          fun room col board f t hs hg hgo hf ht hu hl => ?_⟩
  · simp only [move, getSession]
    simp [hc, hs, hg]
  · simp only [move, getSession]
    simp [hc, hs]
  · simp only [move, getSession]
    simp [hc, hs]
  · simp only [move, getSession]
    simp [hc, hs, hg, hf, ht, hu, hl]

/-- Witness for `move_stray_requests`: after "a" quits, a move from "a"
(stale room key, game gone) is a silent no-op, and a move from the
detached opponent "b" (room key deleted) raises `KeyError`. -/
theorem move_stray_requests_witness :
    lookupA (afterEvents quitTrace).games "room_a_b" = none ∧
    move demoRules (afterEvents quitTrace) "a" ⟨some "e2", some "e4", none⟩ =
      Except.ok (afterEvents quitTrace, []) ∧
    move demoRules (afterEvents quitTrace) "b" ⟨some "e2", some "e4", none⟩ =
      Except.error Err.keyError :=
  ⟨by decide,
   (move_stray_requests demoRules (afterEvents quitTrace) "a"
      ⟨some "e2", some "e4", none⟩ (by decide)).1 "room_a_b" (some "white")
      (by decide) (by decide),
   ((move_stray_requests demoRules (afterEvents quitTrace) "b"
      ⟨some "e2", some "e4", none⟩ (by decide)).2.1 (some "black")
      (by decide))⟩

/-- Claim C9 amended: a replay from a handle whose session attachment
was actually cleared is ignored (no state change, nothing emitted), and
teardown does discard the pending request set; but a handle retaining a
stale room key (the quitter, or a disconnect survivor) still registers a
pending replay request under the dead room identifier — a state change —
although no game is created or restarted by it and nothing is
emitted. -/
theorem replay_detached_behavior {B : Type} (R : Rules B) (s : ServerState B)
    (sid : String) (hc : sid ∈ s.connected) :
    (∀ col, lookupA s.sessions sid = some ⟨none, col⟩ →
      replay R s sid = Except.ok (s, [])) ∧
    (lookupA s.sessions sid = none → replay R s sid = Except.ok (s, [])) ∧
    (∀ room col, lookupA s.sessions sid = some ⟨some room, col⟩ →
      lookupA s.games room = none → lookupA s.replayRequests room = none →
      replay R s sid =
        Except.ok ({ s with
          replayRequests := insertA s.replayRequests room [sid] }, [])) := by
  refine ⟨fun col hs => ?_, fun hs => ?_, fun room col hs hg hr => ?_⟩
  · simp only [replay, getSession]
    simp [hc, hs]
  · simp only [replay, getSession]
    simp [hc, hs]
  · simp only [replay, getSession]
    simp [hc, hs, hr]

/-- Witness for `replay_detached_behavior`: after "a" quits, a replay
from the cleared opponent "b" is a no-op, while a replay from the stale
quitter "a" records a request for the dead room. -/
theorem replay_detached_behavior_witness :
    lookupA (afterEvents quitTrace).sessions "b" =
      some ⟨none, some "black"⟩ ∧
    replay demoRules (afterEvents quitTrace) "b" =
      Except.ok (afterEvents quitTrace, []) ∧
    replay demoRules (afterEvents quitTrace) "a" =
      Except.ok ({ afterEvents quitTrace with
        replayRequests := insertA (afterEvents quitTrace).replayRequests
          "room_a_b" ["a"] }, []) :=
  ⟨by decide,
   (replay_detached_behavior demoRules (afterEvents quitTrace) "b"
      (by decide)).1 (some "black") (by decide),
   (replay_detached_behavior demoRules (afterEvents quitTrace) "a"
      (by decide)).2.2 "room_a_b" (some "white") (by decide) (by decide)
      (by decide)⟩

/-- Claim C3 amended: with at most one request pending for the room (the
code's own invariant — the set is deleted the moment it reaches two), a
replay restart fires exactly when the requester joins a pending request
from a DIFFERENT handle attached to the same room identifier: an empty
set just records the requester, the same handle requesting again leaves
the state exactly unchanged and never triggers a restart, and a distinct
pending handle makes the restart fire — board reset to the initial
position, pending set discarded, `replay_start` with the fresh state
broadcast to the room (hence to both participants).  Because the pending
set is keyed by room identifier and survives re-creation of a session
under the same identifier, "both have requested since the session's
creation" is NOT equivalent to this condition (see the
counterexample). -/
theorem replay_restart_iff_pending {B : Type} (R : Rules B)
    (s : ServerState B) (sid room : String) (col : Option String)
    (p1 p2 : String)
    (hc : sid ∈ s.connected)
    (hs : lookupA s.sessions sid = some ⟨some room, col⟩)
    (hp1 : (room, p1) ∈ s.rooms) (hp2 : (room, p2) ∈ s.rooms) :
    (lookupA s.replayRequests room = none →
      replay R s sid =
        Except.ok ({ s with
          replayRequests := insertA s.replayRequests room [sid] }, [])) ∧
    (lookupA s.replayRequests room = some [sid] →
      replay R s sid = Except.ok (s, [])) ∧
    (∀ q, lookupA s.replayRequests room = some [q] → q ≠ sid →
      replay R s sid =
        Except.ok ({ s with games := insertA s.games room R.init,
                            replayRequests := eraseA s.replayRequests room },
          [⟨roomMembers s.rooms room, Msg.replayStart (R.fen R.init)⟩]) ∧
      p1 ∈ roomMembers s.rooms room ∧ p2 ∈ roomMembers s.rooms room) := by
  refine ⟨fun h0 => ?_, fun h1 => ?_,
          fun q hq hqs => ⟨?_, mem_roomMembers hp1, mem_roomMembers hp2⟩⟩
  · simp only [replay, getSession]
    simp [hc, hs, h0]
  · simp only [replay, getSession]
    simp [hc, hs, h1, insertA_of_lookupA_self _ _ _ h1]
  · simp only [replay, getSession]
    simp [hc, hs, hq, Ne.symm hqs, eraseA_insertA]

/-- Witness for `replay_restart_iff_pending` at the re-created game of
`staleReplayTrace`: the pending set holds "a", so a single replay from
"b" fires the restart and both room members receive `replay_start`. -/
theorem replay_restart_iff_pending_witness :
    lookupA (afterEvents staleReplayTrace).replayRequests "room_a_b" =
      some ["a"] ∧
    replay demoRules (afterEvents staleReplayTrace) "b" =
      Except.ok ({ afterEvents staleReplayTrace with
                     games := insertA (afterEvents staleReplayTrace).games
                       "room_a_b" demoRules.init,
                     replayRequests :=
                       eraseA (afterEvents staleReplayTrace).replayRequests
                         "room_a_b" },
        [⟨roomMembers (afterEvents staleReplayTrace).rooms "room_a_b",
          Msg.replayStart (demoRules.fen demoRules.init)⟩]) ∧
    "a" ∈ roomMembers (afterEvents staleReplayTrace).rooms "room_a_b" :=
  ⟨by decide,
   ((replay_restart_iff_pending demoRules (afterEvents staleReplayTrace)
      "b" "room_a_b" (some "black") "b" "a" (by decide) (by decide)
      (by decide) (by decide)).2.2 "a" (by decide) (by decide)).1,
   ((replay_restart_iff_pending demoRules (afterEvents staleReplayTrace)
      "b" "room_a_b" (some "black") "b" "a" (by decide) (by decide)
      (by decide) (by decide)).2.2 "a" (by decide) (by decide)).2.2⟩

/-- Claim C3 counterexample to the claim as stated: in
`staleReplayTrace` the final `join` re-creates a session under the old
identifier `room_a_b` while the pending set already holds "a"'s request
issued BEFORE this session's creation (the only `Event.replay "a"` in
the trace precedes the final `Event.join "b"`); the very next replay
from "b" alone then fires a restart, although not both participants
requested since the session's creation. -/
theorem replay_restart_stale :
    (afterEvents staleReplayTrace).replayRequests = [("room_a_b", ["a"])] ∧
    (afterEvents staleReplayTrace).games = [("room_a_b", 0)] ∧
    staleReplayTrace.getLast? = some (Event.join "b") ∧
    replay demoRules (afterEvents staleReplayTrace) "b" =
      Except.ok ({ afterEvents staleReplayTrace with replayRequests := [] },
        [⟨["b", "a"], Msg.replayStart "0"⟩]) := by
  decide

/-- Claim C4 amended: `quit` computes the opponent by splitting the room
identifier on underscores and taking the second and third pieces; when
the split yields exactly `["room", p1, p2]` (as it does whenever neither
participant sid contains an underscore) and the computed opponent is the
connected, attached other participant, the claimed behaviour holds:
`opponent_left` is broadcast to the room, the game and its replay
requests are deleted, the opponent's room key is removed from its
session, the opponent is appended at the tail of the waiting queue, and
the quitter is not re-enqueued. -/
theorem quit_split_behavior {B : Type} (s : ServerState B)
    (sid opp room p1 p2 : String) (col copp : Option String)
    (hc : sid ∈ s.connected)
    (hs : lookupA s.sessions sid = some ⟨some room, col⟩)
    (hsplit : splitOnUnderscore room = ["room", p1, p2])
    (hod : opp = if sid = p1 then p2 else p1)
    (hoc : opp ∈ s.connected)
    (hos : lookupA s.sessions opp = some ⟨some room, copp⟩)
    (how : opp ∉ s.waiting)
    (hne : sid ≠ opp) :
    quit s sid =
      Except.ok ({ s with waiting := s.waiting ++ [opp],
                          games := eraseA s.games room,
                          replayRequests := eraseA s.replayRequests room,
                          sessions := insertA s.sessions opp ⟨none, copp⟩,
                          rooms := leaveRoom s.rooms sid room },
        [⟨roomMembers s.rooms room, Msg.opponentLeft⟩]) ∧
    lookupA (insertA s.sessions opp ⟨none, copp⟩) opp = some ⟨none, copp⟩ ∧
    (sid ∉ s.waiting → sid ∉ s.waiting ++ [opp]) := by
  refine ⟨?_, lookupA_insertA_self _ _ _, fun hsw => ?_⟩
  · simp only [quit, getSession]
    simp [hc, hs, hsplit, ← hod, hoc, hos, how]
  · simp [hsw, hne]

/-- Witness for `quit_split_behavior`: "a" quits the game `room_a_b`;
the opponent "b" is cleared and re-enqueued, "a" is not. -/
theorem quit_split_behavior_witness :
    splitOnUnderscore "room_a_b" = ["room", "a", "b"] ∧
    quit (afterEvents pairTrace) "a" =
      Except.ok ({ afterEvents pairTrace with
                     waiting := ["b"],
                     games := [],
                     replayRequests := [],
                     sessions := [("a", ⟨some "room_a_b", some "white"⟩),
                                  ("b", ⟨none, some "black"⟩)],
                     rooms := [("room_a_b", "b")] },
        [⟨["a", "b"], Msg.opponentLeft⟩]) :=
  ⟨by decide,
   ((quit_split_behavior (afterEvents pairTrace) "a" "b" "room_a_b" "a" "b"
      (some "white") (some "black") (by decide) (by decide) (by decide)
      (by decide) (by decide) (by decide) (by decide) (by decide)).1).trans
     (by decide)⟩

/-- Claim C5 amended: on disconnect the sid is removed from the waiting
queue (first occurrence); if some stored game's room name contains the
sid, `opponent_left` is broadcast to that room, the game and its replay
requests are destroyed, and neither the disconnecting handle nor the
opponent is re-enqueued — but the opponent's session attachment is NOT
cleared: it keeps the stale room key (only the disconnecting sid's own
engine-side session is dropped). -/
theorem disconnect_behavior {B : Type} (s : ServerState B) (sid : String) :
    (findGame sid s.games = Except.ok none →
      disconnect s sid =
        Except.ok ({ s with waiting := s.waiting.erase sid,
                            connected := s.connected.erase sid,
                            sessions := eraseA s.sessions sid,
                            rooms := leaveAllRooms s.rooms sid }, [])) ∧
    (∀ room q1 q2, findGame sid s.games = Except.ok (some (room, q1, q2)) →
      disconnect s sid =
        Except.ok ({ s with waiting := s.waiting.erase sid,
                            games := eraseA s.games room,
                            replayRequests := eraseA s.replayRequests room,
                            connected := s.connected.erase sid,
                            sessions := eraseA s.sessions sid,
                            rooms := leaveAllRooms s.rooms sid },
          [⟨roomMembers s.rooms room, Msg.opponentLeft⟩]) ∧
      (∀ p, p ≠ sid →
        lookupA (eraseA s.sessions sid) p = lookupA s.sessions p)) := by
  constructor
  · intro h0
    simp only [disconnect]
    simp [h0]
  · intro room q1 q2 h1
    refine ⟨?_, fun p hp => lookupA_eraseA_ne _ _ _ hp⟩
    simp only [disconnect]
    simp [h1]

/-- Witness for `disconnect_behavior`: "a" disconnects from the live
game `room_a_b`; the game is destroyed, "b" gets the broadcast, nobody
is re-enqueued, and "b"'s session still holds the room key. -/
theorem disconnect_behavior_witness :
    findGame "a" (afterEvents pairTrace).games =
      Except.ok (some ("room_a_b", "a", "b")) ∧
    disconnect (afterEvents pairTrace) "a" =
      Except.ok ({ afterEvents pairTrace with
                     waiting := (afterEvents pairTrace).waiting.erase "a",
                     games := eraseA (afterEvents pairTrace).games "room_a_b",
                     replayRequests :=
                       eraseA (afterEvents pairTrace).replayRequests
                         "room_a_b",
                     connected := (afterEvents pairTrace).connected.erase "a",
                     sessions := eraseA (afterEvents pairTrace).sessions "a",
                     rooms := leaveAllRooms (afterEvents pairTrace).rooms "a" },
        [⟨roomMembers (afterEvents pairTrace).rooms "room_a_b",
          Msg.opponentLeft⟩]) ∧
    lookupA (eraseA (afterEvents pairTrace).sessions "a") "b" =
      lookupA (afterEvents pairTrace).sessions "b" :=
  ⟨by decide,
   ((disconnect_behavior (afterEvents pairTrace) "a").2 "room_a_b" "a" "b"
      (by decide)).1,
   ((disconnect_behavior (afterEvents pairTrace) "a").2 "room_a_b" "a" "b"
      (by decide)).2 "b" (by decide)⟩

/-- Claim C6 amended: a second `quit` for the same handle after its
session was torn down does not crash, does not double-free anything and
leaves the state exactly unchanged (the game and request set are already
gone, the opponent is already queued and already cleared), BUT — because
the quitter's own session still carries the room key and the opponent
never left the socket.io room — it emits `opponent_left` to the room
again, and the former opponent is among the recipients.  (A
double-disconnect cannot re-broadcast: the first disconnect already
removed the game, so the scan finds nothing.) -/
theorem quit_after_teardown {B : Type} (s : ServerState B)
    (sid opp room p1 p2 : String) (col copp : Option String)
    (hc : sid ∈ s.connected)
    (hs : lookupA s.sessions sid = some ⟨some room, col⟩)
    (hsplit : splitOnUnderscore room = ["room", p1, p2])
    (hod : opp = if sid = p1 then p2 else p1)
    (hoc : opp ∈ s.connected)
    (hos : lookupA s.sessions opp = some ⟨none, copp⟩)
    (hg : lookupA s.games room = none)
    (hr : lookupA s.replayRequests room = none)
    (hw : opp ∈ s.waiting)
    (hrm : (room, sid) ∉ s.rooms)
    (hmem : (room, opp) ∈ s.rooms) :
    quit s sid =
      Except.ok (s, [⟨roomMembers s.rooms room, Msg.opponentLeft⟩]) ∧
    opp ∈ roomMembers s.rooms room := by
  refine ⟨?_, mem_roomMembers hmem⟩
  simp only [quit, getSession]
  simp [hc, hs, hsplit, ← hod, hoc, hos, hw,
        eraseA_of_lookupA_none _ _ hg, eraseA_of_lookupA_none _ _ hr,
        leaveRoom_of_not_mem hrm]

/-- Witness for `quit_after_teardown`: the second `quit "a"` after
`quitTrace` re-broadcasts `opponent_left`, reaching "b". -/
theorem quit_after_teardown_witness :
    lookupA (afterEvents quitTrace).games "room_a_b" = none ∧
    quit (afterEvents quitTrace) "a" =
      Except.ok (afterEvents quitTrace,
        [⟨roomMembers (afterEvents quitTrace).rooms "room_a_b",
          Msg.opponentLeft⟩]) ∧
    "b" ∈ roomMembers (afterEvents quitTrace).rooms "room_a_b" :=
  ⟨by decide,
   (quit_after_teardown (afterEvents quitTrace) "a" "b" "room_a_b" "a" "b"
      (some "white") (some "black") (by decide) (by decide) (by decide)
      (by decide) (by decide) (by decide) (by decide) (by decide)
      (by decide) (by decide) (by decide)).1,
   (quit_after_teardown (afterEvents quitTrace) "a" "b" "room_a_b" "a" "b"
      (some "white") (some "black") (by decide) (by decide) (by decide)
      (by decide) (by decide) (by decide) (by decide) (by decide)
      (by decide) (by decide) (by decide)).2⟩

end Chess
